import Mathlib

/-!
# Verification of the Keeper slack-app core against its specification

Shallow embedding of the asynchronous command-execution client
(`src/keeper_client.py`) and of the two reconciliation pollers
(`src/background/device_poller.py`, `src/background/pedm_poller.py`).

Conventions of the embedding:
* machine floats of the backoff computation are modelled as `ℚ`
  (every value that arises — 0.5, 0.75, 1.125, 1.6875, 2.0 — is a small
  dyadic rational, on which Python float arithmetic is exact);
* a JSON result dict is modelled by the record `ResultData`, restricted to
  the fields the client reads (`status`, `error`, `message`, `data`,
  `http_status`); a missing key and a `null` value both map to `none`;
* a pending item is identified by its id string (`device_id` resp.
  `approval_uid`); a dict whose id key is missing or empty maps to `""`,
  which is exactly the set of falsy values the Python code skips;
* Python exceptions of fallible calls are explicit constructors
  (`HttpResponse.exn`, `SubmitResponse.exn`) or `Except` values;
* each `while` loop is embedded with explicit fuel, and the fuel chosen at
  the top level is proved sufficient, so running out of fuel
  (`Option.none` at the outer level) is provably unreachable.
-/

namespace KeeperClient

/-- The `data` field of a result body: absent/null, a JSON list (of pending
items, reduced to their id strings), or some other JSON value. -/
inductive DataField where
  | dnone : DataField
  | dlist : List String → DataField
  | dother : DataField
deriving DecidableEq

/-- The fields of a `/result/{request_id}` JSON body that
`keeper_client.py` reads.  `http_status` is the extra key the client itself
injects on an HTTP 400 poll response. -/
structure ResultData where
  status : Option String
  error : Option String
  message : Option String
  rdata : DataField
  http_status : Option Nat
deriving DecidableEq

/-- One poll of `GET /result/{request_id}`: an HTTP response with a status
code and a body (`none` when `response.json()` raises), or a
transport-level exception. -/
inductive HttpResponse where
  | resp : Nat → Option ResultData → HttpResponse
  | exn : HttpResponse
deriving DecidableEq

/-- A submission `POST /executecommand-async`: HTTP code plus body, where
the body is `none` when `response.json()` raises and otherwise carries the
optional `request_id` field; or a transport-level exception. -/
inductive SubmitResponse where
  | resp : Nat → Option (Option String) → SubmitResponse
  | exn : SubmitResponse
deriving DecidableEq

/-- Result of one iteration of the `_poll_for_result` loop body:
either the function returns (with the Python return value, `none` being
Python `None`), or the loop continues to the next poll. -/
inductive StepResult where
  | ret : Option ResultData → StepResult
  | next : StepResult
deriving DecidableEq

/-- `keeper_client.py` lines 864-876: on an HTTP 400 poll response the
client returns the parsed body with `http_status = 400` added, or, when
the body does not parse, the fallback dict
`{'status': 'error', 'message': 'Command execution failed',
'http_status': 400}`. -/
def mark400 : Option ResultData → ResultData
  | some b => { b with http_status := some 400 }
  | none =>
    { status := some "error"
      error := none
      message := some "Command execution failed"
      rdata := DataField.dnone
      http_status := some 400 }

/-- The body of the `while` loop of `_poll_for_result`
(`keeper_client.py` lines 831-876), classifying one poll response:
* transport exception, or a 200 whose body fails to parse: the enclosing
  `except` returns Python `None`;
* 200 with body status `success` or `error`: return the body;
* 200 with any other body status (`pending`, `running`, unknown): continue;
* 400 (any body): return the body marked with `http_status = 400`;
* any other code (202 included): continue polling. -/
def pollStep : HttpResponse → StepResult
  | HttpResponse.exn => StepResult.ret none
  | HttpResponse.resp code body =>
    if code = 200 then
      match body with
      | none => StepResult.ret none
      | some b =>
        if b.status = some "success" then StepResult.ret (some b)
        else if b.status = some "error" then StepResult.ret (some b)
        else StepResult.next
    else if code = 400 then StepResult.ret (some (mark400 body))
    else StepResult.next

/-- `poll_interval = min(poll_interval * 1.5, max_poll_interval)` with
`max_poll_interval = 2.0` (`keeper_client.py` line 881). -/
def nextInterval (i : ℚ) : ℚ := min (i * (3 / 2)) 2

/-- The sequence of poll intervals: starts at `0.5`
(`keeper_client.py` line 826) and evolves by `nextInterval`. -/
def intervalSeq : ℕ → ℚ
  | 0 => 1 / 2
  | n + 1 => nextInterval (intervalSeq n)

/-- Fuel-indexed embedding of the `while elapsed < max_wait` loop of
`_poll_for_result` (`keeper_client.py` lines 830-888).  Arguments:
remaining fuel, index `k` of the next poll, current `poll_interval` and
`elapsed`.  Returns `none` when the fuel runs out (proved unreachable for
the fuel used by `poll_for_result`), otherwise `some (n, r)` where `n` is
the total number of poll HTTP requests performed (counted from index 0)
and `r` is the Python return value (`none` = Python `None`: timeout or
transport error). -/
def pollGo (resp : ℕ → HttpResponse) (maxWait : ℚ) :
    ℕ → ℕ → ℚ → ℚ → Option (ℕ × Option ResultData)
  | 0, k, _, elapsed =>
    if elapsed < maxWait then none else some (k, none)
  | fuel + 1, k, interval, elapsed =>
    if elapsed < maxWait then
      match pollStep (resp k) with
      | StepResult.ret r => some (k + 1, r)
      | StepResult.next =>
        pollGo resp maxWait fuel (k + 1) (nextInterval interval) (elapsed + interval)
    else some (k, none)

/-- Fuel sufficient for `pollGo` starting from `elapsed = 0`: each
iteration adds at least `1/2` to `elapsed`, so `⌈2·maxWait⌉ + 1` steps
always reach the exit. -/
def pollFuel (maxWait : ℚ) : ℕ := ⌈maxWait * 2⌉.toNat + 1

/-- `_poll_for_result(request_id, max_wait)`: run the poll loop from
`poll_interval = 0.5`, `elapsed = 0` with provably sufficient fuel. -/
def poll_for_result (resp : ℕ → HttpResponse) (maxWait : ℚ) :
    Option (ℕ × Option ResultData) :=
  pollGo resp maxWait (pollFuel maxWait) 0 (1 / 2) 0

/-- Wall-clock-annotated variant of `pollGo`: `rt k` is the round-trip
duration of poll `k` (the `session.get` call, bounded by its 5s timeout),
and each continuing iteration additionally sleeps `interval` seconds
(`time.sleep(poll_interval)`).  The `elapsed` counter of the source counts
only the sleeps, exactly as in the code; `time` accumulates real time.
Returns `(total wall time, Python return value)`. -/
def pollGoTimed (resp : ℕ → HttpResponse) (rt : ℕ → ℚ) (maxWait : ℚ) :
    ℕ → ℕ → ℚ → ℚ → ℚ → Option (ℚ × Option ResultData)
  | 0, _, _, elapsed, time =>
    if elapsed < maxWait then none else some (time, none)
  | fuel + 1, k, interval, elapsed, time =>
    if elapsed < maxWait then
      match pollStep (resp k) with
      | StepResult.ret r => some (time + rt k, r)
      | StepResult.next =>
        pollGoTimed resp rt maxWait fuel (k + 1) (nextInterval interval)
          (elapsed + interval) (time + rt k + interval)
    else some (time, none)

/-- `_poll_for_result` with wall-clock accounting. -/
def poll_for_result_timed (resp : ℕ → HttpResponse) (rt : ℕ → ℚ)
    (maxWait : ℚ) : Option (ℚ × Option ResultData) :=
  pollGoTimed resp rt maxWait (pollFuel maxWait) 0 (1 / 2) 0 0

/-- `sync_pedm_data` (`keeper_client.py` lines 1265-1306), over an abstract
submission response and poll-response sequence.  Returns the Python result
(`True` only on a successful sync) and the number of result polls
performed.  All failure paths — transport exception, non-202 submission,
unparseable body, missing `request_id`, poll timeout/transport error,
body status `error` or anything other than `success` — return `False`. -/
def sync_pedm_data (sub : SubmitResponse) (resp : ℕ → HttpResponse) :
    Bool × ℕ :=
  match sub with
  | SubmitResponse.exn => (false, 0)
  | SubmitResponse.resp code body =>
    if code = 202 then
      match body with
      | none => (false, 0)
      | some none => (false, 0)
      | some (some _) =>
        match poll_for_result resp 30 with
        | none => (false, 0)
        | some (n, none) => (false, n)
        | some (n, some rd) =>
          if rd.status = some "error" then (false, n)
          else if rd.status = some "success" then (true, n)
          else (false, n)
    else (false, 0)

/-- `search_records` (`keeper_client.py` lines 143-184), from the
submission POST onward (query sanitization and command construction are
upstream of everything these claims state).  The parsing of a successful
result body (`_parse_search_records_results`) is abstracted as the
parameter `parse`.  Returns the record list and the number of result polls
performed. -/
def search_records (sub : SubmitResponse) (resp : ℕ → HttpResponse)
    (parse : ResultData → List String) : List String × ℕ :=
  match sub with
  | SubmitResponse.exn => ([], 0)
  | SubmitResponse.resp code body =>
    if code = 202 then
      match body with
      | none => ([], 0)
      | some none => ([], 0)
      | some (some _) =>
        match poll_for_result resp 30 with
        | none => ([], 0)
        | some (n, none) => ([], n)
        | some (n, some rd) => (parse rd, n)
    else ([], 0)

/-- `get_pending_device_approvals` (`keeper_client.py` lines 1453-1506).
Items of the `data` list are reduced to their `device_id` strings.
Every failure path — transport exception, non-202 submission, missing
`request_id`, poll timeout or transport error, result status `error`,
non-list `data` — returns the EMPTY LIST, indistinguishable from a
successful fetch with zero pending approvals. -/
def get_pending_device_approvals (sub : SubmitResponse)
    (resp : ℕ → HttpResponse) : List String × ℕ :=
  match sub with
  | SubmitResponse.exn => ([], 0)
  | SubmitResponse.resp code body =>
    if code = 202 then
      match body with
      | none => ([], 0)
      | some none => ([], 0)
      | some (some _) =>
        match poll_for_result resp 30 with
        | none => ([], 0)
        | some (n, none) => ([], n)
        | some (n, some rd) =>
          if rd.status = some "error" then ([], n)
          else if rd.status = some "success" then
            (match rd.rdata with
             | DataField.dnone => ([], n)
             | DataField.dlist xs => (xs, n)
             | DataField.dother => ([], n))
          else ([], n)
    else ([], 0)

/-- `get_pending_pedm_requests` (`keeper_client.py` lines 1308-1364).
First runs `sync_pedm_data` (its result is only logged; the listing
proceeds either way), then submits the listing command.  Items of the
`data` list are reduced to their `approval_uid` strings.  Returns
`none` (Python `None`) on every failure path and `some` list on success;
the second component counts result polls across both commands. -/
def get_pending_pedm_requests (subSync : SubmitResponse)
    (respSync : ℕ → HttpResponse) (subList : SubmitResponse)
    (respList : ℕ → HttpResponse) : Option (List String) × ℕ :=
  let sync := sync_pedm_data subSync respSync
  match subList with
  | SubmitResponse.exn => (none, sync.2)
  | SubmitResponse.resp code body =>
    if code = 202 then
      match body with
      | none => (none, sync.2)
      | some none => (none, sync.2)
      | some (some _) =>
        match poll_for_result respList 30 with
        | none => (none, sync.2)
        | some (n, none) => (none, sync.2 + n)
        | some (n, some rd) =>
          if rd.status = some "error" then (none, sync.2 + n)
          else if rd.status = some "success" then
            (match rd.rdata with
             | DataField.dnone => (some [], sync.2 + n)
             | DataField.dlist xs => (some xs, sync.2 + n)
             | DataField.dother => (none, sync.2 + n))
          else (none, sync.2 + n)
    else (none, sync.2)

end KeeperClient

namespace Poller

open KeeperClient

/-- Accumulator of the per-item loop inside
`_check_and_post_new_requests`: the `current_ids` set, the `new_requests`
list (in snapshot order) and the seen-set as it is being extended. -/
structure TickAcc where
  currentIds : Finset String
  newIds : List String
  seen : Finset String
deriving DecidableEq

/-- One iteration of `for device_data in pending` / `for request_data in
pending` (`device_poller.py` lines 103-114, `pedm_poller.py` lines
100-111): skip items with a falsy id; always add the id to `current_ids`;
when the id is not yet seen, append it to `new_requests` and add it to the
seen-set. -/
def scanStep (acc : TickAcc) (x : String) : TickAcc :=
  if x = "" then acc
  else if x ∈ acc.seen then
    { acc with currentIds := insert x acc.currentIds }
  else
    { currentIds := insert x acc.currentIds
      newIds := acc.newIds ++ [x]
      seen := insert x acc.seen }

/-- The whole identification loop, starting from empty `current_ids` and
`new_requests`. -/
def scanPending (seen : Finset String) (pending : List String) : TickAcc :=
  pending.foldl scanStep ⟨∅, [], seen⟩

/-- The posting loop (`device_poller.py` lines 119-128, `pedm_poller.py`
lines 116-125): each new item is posted inside its own `try`/`except`, so
a failing notification is logged and the loop continues with the next
item.  `notify1` is the notification sink; the result is the list of
successfully posted items. -/
def postAll (notify1 : String → Except Unit Unit) : List String → List String
  | [] => []
  | x :: xs =>
    match notify1 x with
    | Except.ok _ => x :: postAll notify1 xs
    | Except.error _ => postAll notify1 xs

/-- The non-empty-snapshot branch shared verbatim by both pollers:
identify new items (updating the seen-set), post the new items (failures
caught per item), then intersect the seen-set with `current_ids`.
Returns (seen-set after the tick, attempted notifications, successful
notifications). -/
def tickCore (notify1 : String → Except Unit Unit) (seen : Finset String)
    (pending : List String) : Finset String × List String × List String :=
  let acc := scanPending seen pending
  (acc.seen ∩ acc.currentIds, acc.newIds, postAll notify1 acc.newIds)

/-- `DeviceApprovalPoller._check_and_post_new_requests`
(`device_poller.py` lines 87-135) given the fetched list: a falsy
(empty) `pending` — which the device fetch also produces on EVERY fetch
failure — clears the seen-set and posts nothing; otherwise the shared
reconciliation runs. -/
def device_check_and_post (notify1 : String → Except Unit Unit)
    (seen : Finset String) (pending : List String) :
    Finset String × List String × List String :=
  if pending = [] then (∅, [], []) else tickCore notify1 seen pending

/-- `PEDMPoller._check_and_post_new_requests` (`pedm_poller.py` lines
79-132) given the fetched value: `none` (fetch failure) leaves the
seen-set untouched and posts nothing; an empty list (confirmed empty)
clears the seen-set; otherwise the shared reconciliation runs. -/
def pedm_check_and_post (notify1 : String → Except Unit Unit)
    (seen : Finset String) (pending : Option (List String)) :
    Finset String × List String × List String :=
  match pending with
  | none => (seen, [], [])
  | some xs => if xs = [] then (∅, [], []) else tickCore notify1 seen xs

/-- Observable trace of one tick: attempted notifications, successful
notifications, and the seen-set after the tick. -/
structure TickTrace where
  attempts : List String
  posted : List String
  seenAfter : Finset String

instance : DecidableEq TickTrace := fun a b =>
  decidable_of_iff
    (a.attempts = b.attempts ∧ a.posted = b.posted ∧ a.seenAfter = b.seenAfter)
    (by cases a; cases b; simp)

/-- A sequence of device-poller ticks over the given fetched snapshots. -/
def device_run (notify1 : String → Except Unit Unit) (seen : Finset String) :
    List (List String) → List TickTrace
  | [] => []
  | p :: ps =>
    let t := device_check_and_post notify1 seen p
    ⟨t.2.1, t.2.2, t.1⟩ :: device_run notify1 t.1 ps

/-- A sequence of PEDM-poller ticks over the given fetched snapshots. -/
def pedm_run (notify1 : String → Except Unit Unit) (seen : Finset String) :
    List (Option (List String)) → List TickTrace
  | [] => []
  | p :: ps =>
    let t := pedm_check_and_post notify1 seen p
    ⟨t.2.1, t.2.2, t.1⟩ :: pedm_run notify1 t.1 ps

/-- A notification sink that always succeeds. -/
def okSink : String → Except Unit Unit := fun _ => Except.ok ()

/-- What one call of `_check_and_post_new_requests` looks like from
`_poll_loop`'s `try`/`except`: either it returns normally or it raises. -/
inductive TickOutcome where
  | ok : TickOutcome
  | raised : TickOutcome
deriving DecidableEq

/-- The error bookkeeping of one `_poll_loop` iteration
(`device_poller.py` lines 68-83, `pedm_poller.py` lines 62-75), given the
current `consecutive_errors` value: a normal tick resets the counter to 0
and keeps running; a raising tick increments it and, when the counter
reaches `max_errors = 3`, sets `running = False` and breaks.  Returns the
new counter and the new running flag. -/
def loopStep (consecutiveErrors : ℕ) : TickOutcome → ℕ × Bool
  | TickOutcome.ok => (0, true)
  | TickOutcome.raised =>
    let c := consecutiveErrors + 1
    if 3 ≤ c then (c, false) else (c, true)

/-- `_poll_loop` run for `n` iterations over an abstract sequence of tick
outcomes (external `stop()` is not modelled): state is
`(consecutive_errors, running, number of ticks executed)`; once `running`
is false no further tick executes. -/
def loopRun (ticks : ℕ → TickOutcome) : ℕ → ℕ × Bool × ℕ
  | 0 => (0, true, 0)
  | n + 1 =>
    let st := loopRun ticks n
    if st.2.1 then
      let s := loopStep st.1 (ticks st.2.2)
      (s.1, s.2, st.2.2 + 1)
    else st

/-- The PEDM `_poll_loop` composed with the embedded tick body: because
`get_pending_pedm_requests` catches every exception (returning `None`)
and each notification is posted inside its own `try`/`except`, the
embedded tick body is a total function — a tick never raises, so every
iteration takes the `consecutive_errors = 0`, keep-running path.  State is
`(consecutive_errors, running, seen-set, ticks executed)`. -/
def pedm_loop_run (notify1 : String → Except Unit Unit)
    (fetches : ℕ → Option (List String)) : ℕ → ℕ × Bool × Finset String × ℕ
  | 0 => (0, true, ∅, 0)
  | n + 1 =>
    let st := pedm_loop_run notify1 fetches n
    if st.2.1 then
      let t := pedm_check_and_post notify1 st.2.2.1 (fetches st.2.2.2)
      (0, true, t.1, st.2.2.2 + 1)
    else st

/-- The fields of a poller instance that `start`/`stop` touch
(`device_poller.py` lines 30-61, `pedm_poller.py` lines 23-55):
the `running` flag, the thread handle, and — to make "no second
background thread is created" observable — a counter of threads spawned
so far; plus the seen-set, untouched by `start`/`stop`. -/
structure PollerState where
  running : Bool
  thread : Option ℕ
  threadsSpawned : ℕ
  seen : Finset String
deriving DecidableEq

namespace DeviceApprovalPoller

/-- `DeviceApprovalPoller.start` (`device_poller.py` lines 40-51): an
already-running poller only logs a warning and returns; otherwise the
flag is set and one new thread is spawned. -/
def start (s : PollerState) : PollerState :=
  if s.running then s
  else
    { s with
        running := true
        thread := some s.threadsSpawned
        threadsSpawned := s.threadsSpawned + 1 }

/-- `DeviceApprovalPoller.stop` (`device_poller.py` lines 53-61): a
stopped poller returns immediately; otherwise the flag is cleared (the
bounded join changes no modelled field). -/
def stop (s : PollerState) : PollerState :=
  if s.running then { s with running := false } else s

end DeviceApprovalPoller

namespace PEDMPoller

/-- `PEDMPoller.start` (`pedm_poller.py` lines 33-45), identical logic to
the device poller's. -/
def start (s : PollerState) : PollerState :=
  if s.running then s
  else
    { s with
        running := true
        thread := some s.threadsSpawned
        threadsSpawned := s.threadsSpawned + 1 }

/-- `PEDMPoller.stop` (`pedm_poller.py` lines 47-55), identical logic to
the device poller's. -/
def stop (s : PollerState) : PollerState :=
  if s.running then { s with running := false } else s

end PEDMPoller

/-- The set of (truthy) ids occurring in a snapshot list. -/
def idSet : List String → Finset String
  | [] => ∅
  | x :: xs => if x = "" then idSet xs else insert x (idSet xs)

end Poller

/-- Concrete poll-response sequence for exercising the 400-is-terminal
path: poll 0 answers HTTP 202, poll 1 answers HTTP 400 with a body whose
`status` field still says `"pending"`. -/
def c4body : KeeperClient.ResultData :=
  { status := some "pending"
    error := none
    message := none
    rdata := KeeperClient.DataField.dnone
    http_status := none }

def c4resp : ℕ → KeeperClient.HttpResponse := fun k =>
  if k = 0 then KeeperClient.HttpResponse.resp 202 none
  else KeeperClient.HttpResponse.resp 400 (some c4body)

/-- A notification sink that raises exactly on item `"A"`. -/
def failASink : String → Except Unit Unit := fun s =>
  if s = "A" then Except.error () else Except.ok ()

/-- A server that answers HTTP 202 (still processing) to every poll. -/
def c6resp : ℕ → KeeperClient.HttpResponse := fun _ =>
  KeeperClient.HttpResponse.resp 202 none

/-- Round-trip durations: every poll takes 5 seconds (the `session.get`
timeout). -/
def c6rt : ℕ → ℚ := fun _ => 5

namespace KeeperClient

lemma half_le_nextInterval {i : ℚ} (h : 1 / 2 ≤ i) : 1 / 2 ≤ nextInterval i := by
  unfold nextInterval
  refine le_min ?_ (by norm_num)
  nlinarith

lemma nextInterval_le_two (i : ℚ) : nextInterval i ≤ 2 := min_le_right _ _

lemma le_nextInterval {i : ℚ} (h0 : 0 ≤ i) (h2 : i ≤ 2) : i ≤ nextInterval i := by
  unfold nextInterval
  refine le_min ?_ h2
  nlinarith

lemma pollGo_isSome (resp : ℕ → HttpResponse) (maxWait : ℚ) :
    ∀ (fuel k : ℕ) (interval elapsed : ℚ), 1 / 2 ≤ interval →
      (maxWait - elapsed) * 2 < (fuel : ℚ) →
      (pollGo resp maxWait fuel k interval elapsed).isSome := by
  intro fuel
  induction fuel with
  | zero =>
    intro k interval elapsed hi hf
    have hlt : ¬ elapsed < maxWait := by
      intro h
      have : (0 : ℚ) < (maxWait - elapsed) * 2 := by nlinarith
      simp only [Nat.cast_zero] at hf
      linarith
    simp [pollGo, hlt]
  | succ fuel ih =>
    intro k interval elapsed hi hf
    by_cases hlt : elapsed < maxWait
    · simp only [pollGo, hlt, if_true]
      cases hstep : pollStep (resp k) with
      | ret r => simp
      | next =>
        refine ih (k + 1) (nextInterval interval) (elapsed + interval)
          (half_le_nextInterval hi) ?_
        have hcast : ((fuel + 1 : ℕ) : ℚ) = (fuel : ℚ) + 1 := by push_cast; ring
        rw [hcast] at hf
        nlinarith
    · simp [pollGo, hlt]

/-- The fuel chosen by `poll_for_result` is always sufficient. -/
lemma poll_for_result_isSome (resp : ℕ → HttpResponse) (maxWait : ℚ) :
    (poll_for_result resp maxWait).isSome := by
  unfold poll_for_result
  refine pollGo_isSome resp maxWait _ 0 (1 / 2) 0 le_rfl ?_
  unfold pollFuel
  rw [sub_zero]
  rcases le_or_lt maxWait 0 with h | h
  · have h1 : maxWait * 2 ≤ 0 := by nlinarith
    have h2 : (0 : ℚ) < ((⌈maxWait * 2⌉.toNat + 1 : ℕ) : ℚ) := by
      exact_mod_cast Nat.succ_pos _
    linarith
  · have hceil : maxWait * 2 ≤ ((⌈maxWait * 2⌉ : ℤ) : ℚ) := Int.le_ceil _
    have hnn : (0 : ℤ) ≤ ⌈maxWait * 2⌉ := by
      refine Int.ceil_nonneg ?_
      positivity
    have htn : (⌈maxWait * 2⌉.toNat : ℤ) = ⌈maxWait * 2⌉ := Int.toNat_of_nonneg hnn
    have key : ((⌈maxWait * 2⌉.toNat : ℕ) : ℚ) = ((⌈maxWait * 2⌉ : ℤ) : ℚ) := by
      exact_mod_cast congrArg (fun z : ℤ => (z : ℚ)) htn
    calc maxWait * 2 ≤ ((⌈maxWait * 2⌉ : ℤ) : ℚ) := hceil
      _ = ((⌈maxWait * 2⌉.toNat : ℕ) : ℚ) := key.symm
      _ < ((⌈maxWait * 2⌉.toNat : ℕ) : ℚ) + 1 := by linarith
      _ = (((⌈maxWait * 2⌉.toNat + 1 : ℕ)) : ℚ) := by push_cast; ring


lemma pollGo_stop (resp : ℕ → HttpResponse) (maxWait : ℚ) (fuel k : ℕ)
    (interval elapsed : ℚ) (h : ¬ elapsed < maxWait) :
    pollGo resp maxWait fuel k interval elapsed = some (k, none) := by
  cases fuel with
  | zero => simp [pollGo, h]
  | succ n => simp [pollGo, h]

lemma pollGo_ret (resp : ℕ → HttpResponse) (maxWait : ℚ) (fuel fuel' k : ℕ)
    (interval elapsed : ℚ) (r : Option ResultData) (hf : fuel = fuel' + 1)
    (h1 : elapsed < maxWait) (h2 : pollStep (resp k) = StepResult.ret r) :
    pollGo resp maxWait fuel k interval elapsed = some (k + 1, r) := by
  subst hf
  simp [pollGo, h1, h2]

lemma pollGo_next (resp : ℕ → HttpResponse) (maxWait : ℚ) (fuel fuel' k : ℕ)
    (interval elapsed : ℚ) (hf : fuel = fuel' + 1) (h1 : elapsed < maxWait)
    (h2 : pollStep (resp k) = StepResult.next) :
    pollGo resp maxWait fuel k interval elapsed =
      pollGo resp maxWait fuel' (k + 1) (nextInterval interval)
        (elapsed + interval) := by
  subst hf
  simp [pollGo, h1, h2]

lemma pollGoTimed_stop (resp : ℕ → HttpResponse) (rt : ℕ → ℚ) (maxWait : ℚ)
    (fuel k : ℕ) (interval elapsed time : ℚ) (h : ¬ elapsed < maxWait) :
    pollGoTimed resp rt maxWait fuel k interval elapsed time =
      some (time, none) := by
  cases fuel with
  | zero => simp [pollGoTimed, h]
  | succ n => simp [pollGoTimed, h]

lemma pollGoTimed_ret (resp : ℕ → HttpResponse) (rt : ℕ → ℚ) (maxWait : ℚ)
    (fuel fuel' k : ℕ) (interval elapsed time : ℚ) (r : Option ResultData)
    (hf : fuel = fuel' + 1) (h1 : elapsed < maxWait)
    (h2 : pollStep (resp k) = StepResult.ret r) :
    pollGoTimed resp rt maxWait fuel k interval elapsed time =
      some (time + rt k, r) := by
  subst hf
  simp [pollGoTimed, h1, h2]

lemma pollGoTimed_next (resp : ℕ → HttpResponse) (rt : ℕ → ℚ) (maxWait : ℚ)
    (fuel fuel' k : ℕ) (interval elapsed time : ℚ) (hf : fuel = fuel' + 1)
    (h1 : elapsed < maxWait) (h2 : pollStep (resp k) = StepResult.next) :
    pollGoTimed resp rt maxWait fuel k interval elapsed time =
      pollGoTimed resp rt maxWait fuel' (k + 1) (nextInterval interval)
        (elapsed + interval) (time + rt k + interval) := by
  subst hf
  simp [pollGoTimed, h1, h2]

lemma pollFuel_fifteen : pollFuel 15 = 31 := by
  unfold pollFuel
  rw [show ((15 : ℚ) * 2) = ((30 : ℕ) : ℚ) by norm_num, Int.ceil_natCast]
  rfl

end KeeperClient

namespace Poller

lemma idSet_cons (x : String) (xs : List String) :
    idSet (x :: xs) = if x = "" then idSet xs else insert x (idSet xs) := rfl

lemma scanStep_eq (acc : TickAcc) (x : String) :
    scanStep acc x =
      if x = "" then acc
      else if x ∈ acc.seen then
        { acc with currentIds := insert x acc.currentIds }
      else
        { currentIds := insert x acc.currentIds
          newIds := acc.newIds ++ [x]
          seen := insert x acc.seen } := rfl

lemma mem_idSet {a : String} : ∀ {p : List String},
    a ∈ idSet p ↔ a ∈ p ∧ a ≠ "" := by
  intro p
  induction p with
  | nil => simp [idSet]
  | cons x xs ih =>
    rw [idSet_cons]
    by_cases hx : x = ""
    · rw [if_pos hx, ih]
      subst hx
      simp only [List.mem_cons]
      tauto
    · rw [if_neg hx]
      simp only [Finset.mem_insert, ih, List.mem_cons]
      constructor
      · rintro (rfl | ⟨h1, h2⟩)
        · exact ⟨Or.inl rfl, hx⟩
        · exact ⟨Or.inr h1, h2⟩
      · rintro ⟨rfl | h1, h2⟩
        · exact Or.inl rfl
        · exact Or.inr ⟨h1, h2⟩

lemma scan_foldl_currentIds : ∀ (p : List String) (acc : TickAcc),
    (p.foldl scanStep acc).currentIds = acc.currentIds ∪ idSet p := by
  intro p
  induction p with
  | nil => intro acc; simp [idSet]
  | cons x xs ih =>
    intro acc
    rw [List.foldl_cons, scanStep_eq, idSet_cons]
    by_cases hx : x = ""
    · rw [if_pos hx, if_pos hx, ih]
    · rw [if_neg hx, if_neg hx]
      by_cases hseen : x ∈ acc.seen
      · rw [if_pos hseen, ih, Finset.union_insert, Finset.insert_union]
      · rw [if_neg hseen, ih, Finset.union_insert, Finset.insert_union]

lemma scan_foldl_seen : ∀ (p : List String) (acc : TickAcc),
    (p.foldl scanStep acc).seen = acc.seen ∪ idSet p := by
  intro p
  induction p with
  | nil => intro acc; simp [idSet]
  | cons x xs ih =>
    intro acc
    rw [List.foldl_cons, scanStep_eq, idSet_cons]
    by_cases hx : x = ""
    · rw [if_pos hx, if_pos hx, ih]
    · rw [if_neg hx, if_neg hx]
      by_cases hseen : x ∈ acc.seen
      · rw [if_pos hseen, ih, Finset.union_insert,
          Finset.insert_eq_self.mpr (Finset.mem_union_left _ hseen)]
      · rw [if_neg hseen, ih, Finset.union_insert, Finset.insert_union]

lemma scan_foldl_newIds_mem {a : String} : ∀ (p : List String) (acc : TickAcc),
    (a ∈ (p.foldl scanStep acc).newIds ↔
      a ∈ acc.newIds ∨ (a ∈ idSet p ∧ a ∉ acc.seen)) := by
  intro p
  induction p with
  | nil => intro acc; simp [idSet]
  | cons x xs ih =>
    intro acc
    rw [List.foldl_cons, scanStep_eq, idSet_cons]
    by_cases hx : x = ""
    · rw [if_pos hx, if_pos hx, ih]
    · rw [if_neg hx, if_neg hx]
      by_cases hseen : x ∈ acc.seen
      · rw [if_pos hseen, ih]
        simp only [Finset.mem_insert]
        constructor
        · rintro (h | ⟨h1, h2⟩)
          · exact Or.inl h
          · exact Or.inr ⟨Or.inr h1, h2⟩
        · rintro (h | ⟨rfl | h1, h2⟩)
          · exact Or.inl h
          · exact absurd hseen h2
          · exact Or.inr ⟨h1, h2⟩
      · rw [if_neg hseen, ih]
        simp only [Finset.mem_insert, List.mem_append, List.mem_singleton]
        by_cases hax : a = x
        · subst hax
          simp [hseen]
        · constructor
          · rintro ((h | h) | ⟨h1, h2⟩)
            · exact Or.inl h
            · exact absurd h hax
            · exact Or.inr ⟨Or.inr h1, fun hmem => h2 (Or.inr hmem)⟩
          · rintro (h | ⟨rfl | h1, h2⟩)
            · exact Or.inl (Or.inl h)
            · exact absurd rfl hax
            · refine Or.inr ⟨h1, ?_⟩
              rintro (h | h)
              · exact absurd h hax
              · exact h2 h

lemma scanPending_seen (seen : Finset String) (p : List String) :
    (scanPending seen p).seen = seen ∪ idSet p :=
  scan_foldl_seen p ⟨∅, [], seen⟩

lemma scanPending_currentIds (seen : Finset String) (p : List String) :
    (scanPending seen p).currentIds = idSet p := by
  unfold scanPending
  rw [scan_foldl_currentIds]
  exact Finset.empty_union _

lemma scanPending_newIds_mem {a : String} (seen : Finset String)
    (p : List String) :
    a ∈ (scanPending seen p).newIds ↔ a ∈ idSet p ∧ a ∉ seen := by
  unfold scanPending
  rw [scan_foldl_newIds_mem]
  simp

/-- After a tick on a snapshot, the seen-set is exactly the snapshot's id
set: `(seen ∪ ids) ∩ ids = ids`. -/
lemma tickCore_seen (notify1 : String → Except Unit Unit)
    (seen : Finset String) (p : List String) :
    (tickCore notify1 seen p).1 = idSet p := by
  show (scanPending seen p).seen ∩ (scanPending seen p).currentIds = idSet p
  rw [scanPending_seen, scanPending_currentIds]
  exact Finset.inter_eq_right.mpr Finset.subset_union_right

lemma tickCore_attempts_mem {a : String}
    (notify1 : String → Except Unit Unit) (seen : Finset String)
    (p : List String) :
    a ∈ (tickCore notify1 seen p).2.1 ↔ a ∈ idSet p ∧ a ∉ seen :=
  scanPending_newIds_mem seen p

lemma postAll_mem {a : String} {notify1 : String → Except Unit Unit} :
    ∀ {l : List String}, a ∈ postAll notify1 l →
      a ∈ l ∧ notify1 a = Except.ok () := by
  intro l
  induction l with
  | nil => intro h; simp [postAll] at h
  | cons x xs ih =>
    intro h
    rcases hx : notify1 x with u | u
    · rw [postAll, hx] at h
      rcases ih h with ⟨h1, h2⟩
      exact ⟨List.mem_cons_of_mem _ h1, h2⟩
    · rw [postAll, hx] at h
      rcases List.mem_cons.mp h with rfl | h1
      · exact ⟨List.mem_cons_self _ _, by rw [hx]⟩
      · rcases ih h1 with ⟨h1, h2⟩
        exact ⟨List.mem_cons_of_mem _ h1, h2⟩

lemma mem_postAll {a : String} {notify1 : String → Except Unit Unit} :
    ∀ {l : List String}, a ∈ l → notify1 a = Except.ok () →
      a ∈ postAll notify1 l := by
  intro l
  induction l with
  | nil => intro h; simp at h
  | cons x xs ih =>
    intro h hok
    rcases List.mem_cons.mp h with rfl | h1
    · rw [postAll, hok]
      exact List.mem_cons_self _ _
    · rcases hx : notify1 x with u | u
      · rw [postAll, hx]
        exact ih h1 hok
      · rw [postAll, hx]
        exact List.mem_cons_of_mem _ (ih h1 hok)


end Poller

namespace KeeperClient

lemma pollGoTimed_time_le (resp : ℕ → HttpResponse) (rt : ℕ → ℚ)
    (maxWait B : ℚ) (hrt : ∀ j, rt j ≤ B) (hB : 0 ≤ B) :
    ∀ (fuel k : ℕ) (interval elapsed time T : ℚ) (r : Option ResultData),
      interval ≤ 2 → elapsed ≤ maxWait + 2 →
      pollGoTimed resp rt maxWait fuel k interval elapsed time = some (T, r) →
      T ≤ time + (maxWait - elapsed) + 2 + (fuel : ℚ) * B := by
  intro fuel
  induction fuel with
  | zero =>
    intro k interval elapsed time T r hi he heq
    by_cases hlt : elapsed < maxWait
    · simp [pollGoTimed, hlt] at heq
    · rw [pollGoTimed_stop resp rt maxWait 0 k interval elapsed time hlt] at heq
      have hT : T = time := by
        have := (Option.some_inj.mp heq)
        exact (congrArg Prod.fst this).symm
      subst hT
      push_cast
      linarith
  | succ fuel ih =>
    intro k interval elapsed time T r hi he heq
    by_cases hlt : elapsed < maxWait
    · cases hstep : pollStep (resp k) with
      | ret r0 =>
        rw [pollGoTimed_ret resp rt maxWait (fuel + 1) fuel k interval elapsed
          time r0 rfl hlt hstep] at heq
        have hT : T = time + rt k := by
          have := (Option.some_inj.mp heq)
          exact (congrArg Prod.fst this).symm
        have hk := hrt k
        have hfB : 0 ≤ (fuel : ℚ) * B := by positivity
        push_cast
        nlinarith
      | next =>
        rw [pollGoTimed_next resp rt maxWait (fuel + 1) fuel k interval elapsed
          time rfl hlt hstep] at heq
        have hrec := ih (k + 1) (nextInterval interval) (elapsed + interval)
          (time + rt k + interval) T r (nextInterval_le_two _)
          (by linarith) heq
        have hk := hrt k
        push_cast at hrec ⊢
        linarith
    · rw [pollGoTimed_stop resp rt maxWait (fuel + 1) k interval elapsed time
        hlt] at heq
      have hT : T = time := by
        have := (Option.some_inj.mp heq)
        exact (congrArg Prod.fst this).symm
      subst hT
      have hfB : 0 ≤ ((fuel + 1 : ℕ) : ℚ) * B := by positivity
      linarith

lemma pollGo_first400 (resp : ℕ → HttpResponse) (maxWait : ℚ) (m : ℕ)
    (b : Option ResultData) (hm : resp m = HttpResponse.resp 400 b)
    (hpre : ∀ j, j < m → pollStep (resp j) = StepResult.next) :
    ∀ (fuel k : ℕ) (interval elapsed : ℚ) (n : ℕ) (r : Option ResultData),
      k ≤ m →
      pollGo resp maxWait fuel k interval elapsed = some (n, r) →
      n ≤ m + 1 ∧ (n = m + 1 → r = some (mark400 b)) := by
  intro fuel
  induction fuel with
  | zero =>
    intro k interval elapsed n r hk heq
    by_cases hlt : elapsed < maxWait
    · simp [pollGo, hlt] at heq
    · rw [pollGo_stop resp maxWait 0 k interval elapsed hlt] at heq
      have hn : n = k := by
        have := (Option.some_inj.mp heq)
        exact (congrArg Prod.fst this).symm
      subst hn
      exact ⟨by omega, fun h => absurd h (by omega)⟩
  | succ fuel ih =>
    intro k interval elapsed n r hk heq
    by_cases hlt : elapsed < maxWait
    · by_cases hkm : k = m
      · subst hkm
        have hstep : pollStep (resp k) = StepResult.ret (some (mark400 b)) := by
          rw [hm]
          rfl
        rw [pollGo_ret resp maxWait (fuel + 1) fuel k interval elapsed _ rfl
          hlt hstep] at heq
        have := Option.some_inj.mp heq
        have hn : n = k + 1 := (congrArg Prod.fst this).symm
        have hr : r = some (mark400 b) := (congrArg Prod.snd this).symm
        subst hn
        exact ⟨le_refl _, fun _ => hr⟩
      · have hkm' : k < m := lt_of_le_of_ne hk hkm
        have hstep := hpre k hkm'
        rw [pollGo_next resp maxWait (fuel + 1) fuel k interval elapsed rfl
          hlt hstep] at heq
        exact ih (k + 1) _ _ n r (Nat.succ_le_of_lt hkm') heq
    · rw [pollGo_stop resp maxWait (fuel + 1) k interval elapsed hlt] at heq
      have hn : n = k := by
        have := (Option.some_inj.mp heq)
        exact (congrArg Prod.fst this).symm
      subst hn
      exact ⟨by omega, fun h => absurd h (by omega)⟩

end KeeperClient

namespace Poller

lemma device_check_and_post_ne (notify1 : String → Except Unit Unit)
    (seen : Finset String) (p : List String) (hp : p ≠ []) :
    device_check_and_post notify1 seen p = tickCore notify1 seen p := by
  simp [device_check_and_post, hp]

lemma pedm_check_and_post_some_ne (notify1 : String → Except Unit Unit)
    (seen : Finset String) (p : List String) (hp : p ≠ []) :
    pedm_check_and_post notify1 seen (some p) = tickCore notify1 seen p := by
  simp [pedm_check_and_post, hp]

lemma tickCore_posted (notify1 : String → Except Unit Unit)
    (seen : Finset String) (p : List String) :
    (tickCore notify1 seen p).2.2 =
      postAll notify1 (tickCore notify1 seen p).2.1 := rfl

/-- While an id stays present in every (confirmed non-empty) snapshot and
is already in the seen-set, no tick of the run attempts or posts it. -/
lemma device_run_no_reattempt (notify1 : String → Except Unit Unit)
    (A : String) (hA : A ≠ "") :
    ∀ (snaps : List (List String)) (seen : Finset String), A ∈ seen →
      (∀ p ∈ snaps, A ∈ p) →
      ∀ t ∈ device_run notify1 seen snaps, A ∉ t.attempts ∧ A ∉ t.posted := by
  intro snaps
  induction snaps with
  | nil =>
    intro seen _ _ t ht
    simp [device_run] at ht
  | cons p ps ih =>
    intro seen hseen hall t ht
    have hAp : A ∈ p := hall p (List.mem_cons_self _ _)
    have hpne : p ≠ [] := by
      intro h
      subst h
      simp at hAp
    rw [device_run] at ht
    have hnoatt : A ∉ (device_check_and_post notify1 seen p).2.1 := by
      rw [device_check_and_post_ne notify1 seen p hpne]
      intro hmem
      exact (tickCore_attempts_mem notify1 seen p |>.mp hmem).2 hseen
    rcases List.mem_cons.mp ht with rfl | hmem
    · refine ⟨hnoatt, ?_⟩
      intro hpost
      refine hnoatt ?_
      rw [device_check_and_post_ne notify1 seen p hpne] at hpost ⊢
      rw [tickCore_posted] at hpost
      exact (postAll_mem hpost).1
    · refine ih ((device_check_and_post notify1 seen p).1) ?_ ?_ t hmem
      · rw [device_check_and_post_ne notify1 seen p hpne, tickCore_seen,
          mem_idSet]
        exact ⟨hAp, hA⟩
      · intro q hq
        exact hall q (List.mem_cons_of_mem _ hq)

lemma loopRun_stable (ticks : ℕ → TickOutcome) (n : ℕ)
    (h : (loopRun ticks n).2.1 = false) :
    loopRun ticks (n + 1) = loopRun ticks n := by
  rw [loopRun]
  simp [h]

lemma loopRun_three_raised (ticks : ℕ → TickOutcome)
    (h : ∀ i, i < 3 → ticks i = TickOutcome.raised) :
    loopRun ticks 3 = (3, false, 3) := by
  have h0 := h 0 (by norm_num)
  have h1 := h 1 (by norm_num)
  have h2 := h 2 (by norm_num)
  have e1 : loopRun ticks 1 = (1, true, 1) := by
    simp [loopRun, loopStep, h0]
  have e2 : loopRun ticks 2 = (2, true, 2) := by
    rw [show (2 : ℕ) = 1 + 1 from rfl, loopRun, e1]
    simp [loopStep, h1]
  rw [show (3 : ℕ) = 2 + 1 from rfl, loopRun, e2]
  simp [loopStep, h2]

lemma loopRun_stopped_after_three (ticks : ℕ → TickOutcome)
    (h : ∀ i, i < 3 → ticks i = TickOutcome.raised) :
    ∀ n, 3 ≤ n → loopRun ticks n = (3, false, 3) := by
  intro n
  induction n with
  | zero => intro h3; omega
  | succ n ih =>
    intro h3
    rcases Nat.lt_or_ge n 3 with hn | hn
    · have : n + 1 = 3 := by omega
      rw [this]
      exact loopRun_three_raised ticks h
    · have hrec := ih hn
      rw [loopRun, hrec]
      simp

lemma pedm_loop_run_fields (notify1 : String → Except Unit Unit)
    (fetches : ℕ → Option (List String)) :
    ∀ n, (pedm_loop_run notify1 fetches n).1 = 0 ∧
      (pedm_loop_run notify1 fetches n).2.1 = true ∧
      (pedm_loop_run notify1 fetches n).2.2.2 = n := by
  intro n
  induction n with
  | zero => simp [pedm_loop_run]
  | succ n ih =>
    obtain ⟨h1, h2, h3⟩ := ih
    rw [pedm_loop_run]
    simp [h2, h3]

end Poller

open KeeperClient Poller

/-- C1 (counterexample): the claim fails for the device-approval poller.
`get_pending_device_approvals` returns the empty list on a failed fetch
(HTTP 500 submission, or a transport exception), which the device tick
cannot distinguish from a confirmed-empty snapshot: starting from
`SeenSet = {A}`, the failed-fetch tick CLEARS the seen-set, and the
following `{A,B}` snapshot re-notifies A (attempts `[A, B]`, not `[B]`) —
not the trace the claim demands. -/
theorem device_fetch_failure_clears_seen :
    get_pending_device_approvals (SubmitResponse.resp 500 none)
      (fun _ => HttpResponse.exn) = ([], 0) ∧
    get_pending_device_approvals SubmitResponse.exn
      (fun _ => HttpResponse.exn) = ([], 0) ∧
    device_run okSink {"A"} [[], ["A", "B"]] =
      [⟨[], [], ∅⟩, ⟨["A", "B"], ["A", "B"], {"A", "B"}⟩] ∧
    ¬ device_run okSink {"A"} [[], ["A", "B"]] =
      [⟨[], [], {"A"}⟩, ⟨["B"], ["B"], {"A", "B"}⟩] := by
  refine ⟨by decide, by decide, by decide, by decide⟩

/-- C1 (amended): for the PEDM poller the claim holds: a failed fetch is
reported as `None`, and such a tick leaves the seen-set untouched and
notifies nothing, for EVERY seen-set and sink; consequently on the
snapshot sequence `{A}`, fetch-failure, `{A,B}` only `B` is notified on
the third tick and `A` is still in the seen-set.  (For the device poller
the counterexample shows a failed fetch instead surfaces as `[]`,
clearing the seen-set and re-notifying `A`.) -/
theorem pedm_fetch_failure_preserves_seen :
    (∀ (notify1 : String → Except Unit Unit) (seen : Finset String),
      pedm_check_and_post notify1 seen none = (seen, [], [])) ∧
    get_pending_pedm_requests SubmitResponse.exn (fun _ => HttpResponse.exn)
      SubmitResponse.exn (fun _ => HttpResponse.exn) = (none, 0) ∧
    pedm_run okSink ∅ [some ["A"], none, some ["A", "B"]] =
      [⟨["A"], ["A"], {"A"}⟩, ⟨[], [], {"A"}⟩, ⟨["B"], ["B"], {"A", "B"}⟩] := by
  refine ⟨fun notify1 seen => rfl, by decide, by decide⟩

/-- C2: on the snapshot sequence `{A,B}`, `{A,B}`, `{A}`, `{}` (confirmed
empty), `{A}` starting from an empty seen-set, both pollers notify exactly
`A, B` on tick 1, nothing on ticks 2-4 (`B` silently dropped on tick 3,
seen-set cleared on tick 4), and `A` again on tick 5. -/
theorem reconciliation_five_tick_trace :
    device_run okSink ∅ [["A", "B"], ["A", "B"], ["A"], [], ["A"]] =
      [⟨["A", "B"], ["A", "B"], {"A", "B"}⟩, ⟨[], [], {"A", "B"}⟩,
        ⟨[], [], {"A"}⟩, ⟨[], [], ∅⟩, ⟨["A"], ["A"], {"A"}⟩] ∧
    pedm_run okSink ∅
      [some ["A", "B"], some ["A", "B"], some ["A"], some [], some ["A"]] =
      [⟨["A", "B"], ["A", "B"], {"A", "B"}⟩, ⟨[], [], {"A", "B"}⟩,
        ⟨[], [], {"A"}⟩, ⟨[], [], ∅⟩, ⟨["A"], ["A"], {"A"}⟩] := by
  refine ⟨by decide, by decide⟩

/-- C3 (counterexample): a failed fetch does NOT increment the
consecutive-error counter and never stops the poller: the PEDM fetch
wrapper catches every error and returns `None` (first conjunct), the tick
then returns normally, so after one failed-fetch tick the counter is `0`
(not `1`), and after four consecutive failed-fetch ticks the poller is
still `Running` with the counter at `0` and a fourth tick has executed —
the claim demands `Stopped` after three with no further ticks. -/
theorem fetch_failures_never_stop_pedm_poller :
    get_pending_pedm_requests SubmitResponse.exn (fun _ => HttpResponse.exn)
      SubmitResponse.exn (fun _ => HttpResponse.exn) = (none, 0) ∧
    pedm_loop_run okSink (fun _ => none) 1 = (0, true, ∅, 1) ∧
    pedm_loop_run okSink (fun _ => none) 4 = (0, true, ∅, 4) := by
  refine ⟨by decide, by decide, by decide⟩

/-- C3 (amended): the consecutive-error counter counts ticks whose BODY
raises an exception: a raising tick increments it (and stops the poller
once it reaches `max_errors = 3`, after which no further tick runs), a
normally-returning tick resets it to `0`.  Because both fetch wrappers
swallow all errors (`None`/`[]`), a failed fetch produces a normal tick:
the embedded PEDM loop keeps `consecutive_errors = 0` and `running = true`
and executes every tick, whatever the fetch results are. -/
theorem error_counter_mechanism :
    (∀ c, loopStep c TickOutcome.ok = (0, true)) ∧
    (∀ c, (loopStep c TickOutcome.raised).1 = c + 1) ∧
    (∀ c, 3 ≤ c + 1 → (loopStep c TickOutcome.raised).2 = false) ∧
    (∀ ticks, (∀ i, i < 3 → ticks i = TickOutcome.raised) →
      ∀ n, 3 ≤ n → loopRun ticks n = (3, false, 3)) ∧
    (∀ (notify1 : String → Except Unit Unit)
      (fetches : ℕ → Option (List String)) (n : ℕ),
      (pedm_loop_run notify1 fetches n).1 = 0 ∧
      (pedm_loop_run notify1 fetches n).2.1 = true ∧
      (pedm_loop_run notify1 fetches n).2.2.2 = n) := by
  refine ⟨fun c => rfl, ?_, ?_, ?_, ?_⟩
  · intro c
    simp only [loopStep]
    split <;> rfl
  · intro c h
    simp only [loopStep]
    rw [if_pos h]
  · intro ticks h n hn
    exact loopRun_stopped_after_three ticks h n hn
  · intro notify1 fetches n
    exact pedm_loop_run_fields notify1 fetches n

/-- C3 (witness): the amended mechanism at concrete inputs: with every
tick raising, the loop is stopped at `(3, false, 3)` from iteration 5 on;
one raising tick moves the counter from 0 to 1; a raising tick at counter
2 clears `running`. -/
theorem error_counter_mechanism_w :
    loopRun (fun _ => TickOutcome.raised) 5 = (3, false, 3) ∧
    (loopStep 0 TickOutcome.raised).1 = 1 ∧
    (loopStep 2 TickOutcome.raised).2 = false ∧
    (pedm_loop_run okSink (fun _ => none) 3).2.1 = true :=
  ⟨error_counter_mechanism.2.2.2.1 (fun _ => TickOutcome.raised)
      (fun i _ => rfl) 5 (by norm_num),
    error_counter_mechanism.2.1 0,
    error_counter_mechanism.2.2.1 2 (by norm_num),
    (error_counter_mechanism.2.2.2.2 okSink (fun _ => none) 3).2.1⟩

/-- C9: `start()` on a poller whose `running` flag is set returns without
changing any state and without spawning a thread, for both pollers;
`stop()` on a poller whose `running` flag is clear returns without
changing any state. -/
theorem start_stop_noop :
    ∀ s : PollerState,
      (s.running = true →
        DeviceApprovalPoller.start s = s ∧ PEDMPoller.start s = s) ∧
      (s.running = false →
        DeviceApprovalPoller.stop s = s ∧ PEDMPoller.stop s = s) := by
  intro s
  constructor
  · intro h
    constructor
    · simp [DeviceApprovalPoller.start, h]
    · simp [PEDMPoller.start, h]
  · intro h
    constructor
    · simp [DeviceApprovalPoller.stop, h]
    · simp [PEDMPoller.stop, h]

/-- C9 (witness): the no-ops at concrete states. -/
theorem start_stop_noop_w :
    DeviceApprovalPoller.start ⟨true, some 0, 1, ∅⟩ =
      (⟨true, some 0, 1, ∅⟩ : PollerState) ∧
    PEDMPoller.start ⟨true, some 0, 1, {"A"}⟩ =
      (⟨true, some 0, 1, {"A"}⟩ : PollerState) ∧
    DeviceApprovalPoller.stop ⟨false, none, 0, ∅⟩ =
      (⟨false, none, 0, ∅⟩ : PollerState) ∧
    PEDMPoller.stop ⟨false, none, 0, ∅⟩ =
      (⟨false, none, 0, ∅⟩ : PollerState) :=
  ⟨((start_stop_noop ⟨true, some 0, 1, ∅⟩).1 rfl).1,
    ((start_stop_noop ⟨true, some 0, 1, {"A"}⟩).1 rfl).2,
    ((start_stop_noop ⟨false, none, 0, ∅⟩).2 rfl).1,
    ((start_stop_noop ⟨false, none, 0, ∅⟩).2 rfl).2⟩

namespace KeeperClient

lemma intervalSeq_pos : ∀ n, 0 < intervalSeq n := by
  intro n
  induction n with
  | zero => norm_num [intervalSeq]
  | succ n ih =>
    have : 0 < intervalSeq n * (3 / 2) := by nlinarith
    exact lt_min this (by norm_num)

lemma intervalSeq_le_two : ∀ n, intervalSeq n ≤ 2 := by
  intro n
  cases n with
  | zero => norm_num [intervalSeq]
  | succ n => exact min_le_right _ _

end KeeperClient

/-- C5: the poll-interval sequence of `_poll_for_result` (the trajectory of
the `poll_interval` variable, which `pollGo` starts at `0.5` and updates
with `nextInterval` after every non-terminal poll) starts at `0.5`,
satisfies `next = min(prev * 1.5, 2.0)`, is monotone (non-decreasing), and
never exceeds `2.0`, for every poll index. -/
theorem backoff_interval_monotone_capped :
    intervalSeq 0 = 1 / 2 ∧
    (∀ n, intervalSeq (n + 1) = min (intervalSeq n * (3 / 2)) 2) ∧
    Monotone intervalSeq ∧
    (∀ n, intervalSeq n ≤ 2) :=
  ⟨rfl, fun _ => rfl,
    monotone_nat_of_le_succ fun n =>
      KeeperClient.le_nextInterval (KeeperClient.intervalSeq_pos n).le
        (KeeperClient.intervalSeq_le_two n),
    KeeperClient.intervalSeq_le_two⟩

/-- C7: during a tick on a confirmed non-empty snapshot, per-item
notification failures are caught: the tick's resulting seen-set and its
attempted-notification list are the same as with an always-succeeding
sink (the sink is consulted only after the reconciliation state is
computed), and every new item whose own notification succeeds is posted,
regardless of failures among the other items of the same tick; the PEDM
tick on the same non-empty snapshot is the identical computation. -/
theorem notify_failure_contained :
    ∀ (notify1 : String → Except Unit Unit) (seen : Finset String)
      (pending : List String), pending ≠ [] →
      (device_check_and_post notify1 seen pending).1 =
        (device_check_and_post okSink seen pending).1 ∧
      (device_check_and_post notify1 seen pending).2.1 =
        (device_check_and_post okSink seen pending).2.1 ∧
      (∀ a ∈ (device_check_and_post notify1 seen pending).2.1,
        notify1 a = Except.ok () →
        a ∈ (device_check_and_post notify1 seen pending).2.2) ∧
      pedm_check_and_post notify1 seen (some pending) =
        device_check_and_post notify1 seen pending := by
  intro notify1 seen pending hne
  rw [device_check_and_post_ne _ _ _ hne,
    device_check_and_post_ne okSink _ _ hne,
    pedm_check_and_post_some_ne _ _ _ hne]
  refine ⟨rfl, rfl, ?_, rfl⟩
  intro a ha hok
  rw [tickCore_posted]
  exact mem_postAll ha hok

/-- C7 (witness): with a sink that fails exactly on `"A"`, a tick on
`["A", "B"]` still posts `"B"`, and computes the same seen-set as with a
fully-working sink. -/
theorem notify_failure_contained_w :
    (device_check_and_post failASink ∅ ["A", "B"]).1 =
      (device_check_and_post okSink ∅ ["A", "B"]).1 ∧
    "B" ∈ (device_check_and_post failASink ∅ ["A", "B"]).2.2 :=
  ⟨(notify_failure_contained failASink ∅ ["A", "B"] (by decide)).1,
    (notify_failure_contained failASink ∅ ["A", "B"] (by decide)).2.2.1 "B"
      (by decide) rfl⟩

/-- C8: whenever a submission POST of the async-command pattern returns a
code other than HTTP 202, or returns 202 with a body lacking
`request_id`, the operation returns its failure value (`[]` resp.
`False`) having performed zero result polls — shown for `search_records`,
`sync_pedm_data` and `get_pending_device_approvals`. -/
theorem submission_failure_short_circuits :
    ∀ (code : ℕ) (body : Option (Option String)) (resp : ℕ → HttpResponse)
      (parse : ResultData → List String),
      code ≠ 202 ∨ body = some none →
      search_records (SubmitResponse.resp code body) resp parse = ([], 0) ∧
      sync_pedm_data (SubmitResponse.resp code body) resp = (false, 0) ∧
      get_pending_device_approvals (SubmitResponse.resp code body) resp =
        ([], 0) := by
  intro code body resp parse h
  rcases h with h | h
  · exact ⟨by simp [search_records, h], by simp [sync_pedm_data, h],
      by simp [get_pending_device_approvals, h]⟩
  · subst h
    by_cases hc : code = 202
    · subst hc
      exact ⟨rfl, rfl, rfl⟩
    · exact ⟨by simp [search_records, hc], by simp [sync_pedm_data, hc],
        by simp [get_pending_device_approvals, hc]⟩

/-- C8 (witness): an HTTP 500 submission and a 202 submission without
`request_id`, each yielding the failure value with zero polls. -/
theorem submission_failure_short_circuits_w :
    (search_records (SubmitResponse.resp 500 none) (fun _ => HttpResponse.exn)
        (fun _ => []) = ([], 0) ∧
      sync_pedm_data (SubmitResponse.resp 500 none)
        (fun _ => HttpResponse.exn) = (false, 0) ∧
      get_pending_device_approvals (SubmitResponse.resp 500 none)
        (fun _ => HttpResponse.exn) = ([], 0)) ∧
    sync_pedm_data (SubmitResponse.resp 202 (some none))
      (fun _ => HttpResponse.exn) = (false, 0) :=
  ⟨submission_failure_short_circuits 500 none (fun _ => HttpResponse.exn)
      (fun _ => []) (Or.inl (by decide)),
    (submission_failure_short_circuits 202 (some none)
      (fun _ => HttpResponse.exn) (fun _ => []) (Or.inr rfl)).2.1⟩

/-- C10: a newly observed id is added to the seen-set during the
identification loop, before any notification is attempted (it is in
`scanPending.seen`, whose result does not consult the sink); it is in the
tick's attempt list exactly once; while it stays present in every
subsequent snapshot it is never attempted again, for EVERY sink; hence if
the sink raises for it on its first appearance, it is never posted at all
while continuously present — delivery is at most once per
absence-to-presence transition, not exactly once.  The last conjunct
transfers everything to the PEDM poller, whose non-empty-snapshot tick is
the identical computation. -/
theorem at_most_once_per_presence_transition :
    ∀ (notify1 : String → Except Unit Unit) (A : String)
      (seen0 : Finset String) (p0 : List String)
      (snaps : List (List String)),
      A ≠ "" → A ∉ seen0 → A ∈ p0 → (∀ p ∈ snaps, A ∈ p) →
      A ∈ (scanPending seen0 p0).seen ∧
      A ∈ (device_check_and_post notify1 seen0 p0).2.1 ∧
      (∀ t ∈ device_run notify1 ((device_check_and_post notify1 seen0 p0).1)
        snaps, A ∉ t.attempts) ∧
      (notify1 A = Except.error () →
        ∀ t ∈ device_run notify1 seen0 (p0 :: snaps), A ∉ t.posted) ∧
      (∀ (n1 : String → Except Unit Unit) (s : Finset String)
        (p : List String), p ≠ [] →
        pedm_check_and_post n1 s (some p) = device_check_and_post n1 s p) := by
  intro notify1 A seen0 p0 snaps hA hnot hmem hall
  have hp0 : p0 ≠ [] := by
    intro h
    subst h
    simp at hmem
  have hidp : A ∈ idSet p0 := mem_idSet.mpr ⟨hmem, hA⟩
  have hseen1 : A ∈ (device_check_and_post notify1 seen0 p0).1 := by
    rw [device_check_and_post_ne _ _ _ hp0, tickCore_seen, mem_idSet]
    exact ⟨hmem, hA⟩
  refine ⟨?_, ?_, ?_, ?_, ?_⟩
  · rw [scanPending_seen]
    exact Finset.mem_union_right _ hidp
  · rw [device_check_and_post_ne _ _ _ hp0]
    exact (tickCore_attempts_mem _ _ _).mpr ⟨hidp, hnot⟩
  · intro t ht
    exact (device_run_no_reattempt notify1 A hA snaps _ hseen1 hall t ht).1
  · intro herr t ht
    rw [device_run] at ht
    rcases List.mem_cons.mp ht with rfl | h
    · intro hpost
      have hpost' : A ∈ (device_check_and_post notify1 seen0 p0).2.2 := hpost
      rw [device_check_and_post_ne _ _ _ hp0, tickCore_posted] at hpost'
      have hok := (postAll_mem hpost').2
      rw [herr] at hok
      exact absurd hok (by simp)
    · exact (device_run_no_reattempt notify1 A hA snaps _ hseen1 hall t h).2
  · intro n1 s p hp
    rw [pedm_check_and_post_some_ne _ _ _ hp, device_check_and_post_ne _ _ _ hp]

/-- C10 (witness): `"A"`, first observed alone then continuously present in
`["A","B"]`, with a sink that fails exactly on `"A"`: it is in the
seen-set and attempt list at its first tick. -/
theorem at_most_once_per_presence_transition_w :
    "A" ∈ (scanPending ∅ ["A"]).seen ∧
    "A" ∈ (device_check_and_post failASink ∅ ["A"]).2.1 :=
  ⟨(at_most_once_per_presence_transition failASink "A" ∅ ["A"] [["A", "B"]]
      (by decide) (by decide) (by decide) (by decide)).1,
    (at_most_once_per_presence_transition failASink "A" ∅ ["A"] [["A", "B"]]
      (by decide) (by decide) (by decide) (by decide)).2.1⟩

namespace KeeperClient

lemma c4_eval : poll_for_result c4resp 15 =
    some (2, some (mark400 (some c4body))) := by
  unfold poll_for_result
  rw [pollFuel_fifteen]
  rw [pollGo_next c4resp 15 31 30 0 (1 / 2) 0 rfl (by norm_num) rfl]
  rw [pollGo_ret c4resp 15 30 29 1 (nextInterval (1 / 2)) (0 + 1 / 2)
    (some (mark400 (some c4body))) rfl (by norm_num) rfl]

lemma c6_step10 : pollGoTimed c6resp c6rt 15 21 10 2 (257 / 16)
    (1057 / 16) = some (1057 / 16, none) :=
  pollGoTimed_stop c6resp c6rt 15 21 10 2 (257 / 16) (1057 / 16)
    (by norm_num)

lemma c6_step9 : pollGoTimed c6resp c6rt 15 22 9 2 (225 / 16) (945 / 16) =
    some (1057 / 16, none) := by
  rw [pollGoTimed_next c6resp c6rt 15 22 21 9 2 (225 / 16) (945 / 16) rfl
    (by norm_num) rfl]
  norm_num [nextInterval, min_def, c6rt]
  exact c6_step10

lemma c6_step8 : pollGoTimed c6resp c6rt 15 23 8 2 (193 / 16) (833 / 16) =
    some (1057 / 16, none) := by
  rw [pollGoTimed_next c6resp c6rt 15 23 22 8 2 (193 / 16) (833 / 16) rfl
    (by norm_num) rfl]
  norm_num [nextInterval, min_def, c6rt]
  exact c6_step9

lemma c6_step7 : pollGoTimed c6resp c6rt 15 24 7 2 (161 / 16) (721 / 16) =
    some (1057 / 16, none) := by
  rw [pollGoTimed_next c6resp c6rt 15 24 23 7 2 (161 / 16) (721 / 16) rfl
    (by norm_num) rfl]
  norm_num [nextInterval, min_def, c6rt]
  exact c6_step8

lemma c6_step6 : pollGoTimed c6resp c6rt 15 25 6 2 (129 / 16) (609 / 16) =
    some (1057 / 16, none) := by
  rw [pollGoTimed_next c6resp c6rt 15 25 24 6 2 (129 / 16) (609 / 16) rfl
    (by norm_num) rfl]
  norm_num [nextInterval, min_def, c6rt]
  exact c6_step7

lemma c6_step5 : pollGoTimed c6resp c6rt 15 26 5 2 (97 / 16) (497 / 16) =
    some (1057 / 16, none) := by
  rw [pollGoTimed_next c6resp c6rt 15 26 25 5 2 (97 / 16) (497 / 16) rfl
    (by norm_num) rfl]
  norm_num [nextInterval, min_def, c6rt]
  exact c6_step6

lemma c6_step4 : pollGoTimed c6resp c6rt 15 27 4 2 (65 / 16) (385 / 16) =
    some (1057 / 16, none) := by
  rw [pollGoTimed_next c6resp c6rt 15 27 26 4 2 (65 / 16) (385 / 16) rfl
    (by norm_num) rfl]
  norm_num [nextInterval, min_def, c6rt]
  exact c6_step5

lemma c6_step3 : pollGoTimed c6resp c6rt 15 28 3 (27 / 16) (19 / 8)
    (139 / 8) = some (1057 / 16, none) := by
  rw [pollGoTimed_next c6resp c6rt 15 28 27 3 (27 / 16) (19 / 8) (139 / 8)
    rfl (by norm_num) rfl]
  norm_num [nextInterval, min_def, c6rt]
  exact c6_step4

lemma c6_step2 : pollGoTimed c6resp c6rt 15 29 2 (9 / 8) (5 / 4) (45 / 4) =
    some (1057 / 16, none) := by
  rw [pollGoTimed_next c6resp c6rt 15 29 28 2 (9 / 8) (5 / 4) (45 / 4) rfl
    (by norm_num) rfl]
  norm_num [nextInterval, min_def, c6rt]
  exact c6_step3

lemma c6_step1 : pollGoTimed c6resp c6rt 15 30 1 (3 / 4) (1 / 2) (11 / 2) =
    some (1057 / 16, none) := by
  rw [pollGoTimed_next c6resp c6rt 15 30 29 1 (3 / 4) (1 / 2) (11 / 2) rfl
    (by norm_num) rfl]
  norm_num [nextInterval, min_def, c6rt]
  exact c6_step2

/-- Full evaluation of the timed poll loop on a server that never answers
terminally, with every round trip taking 5 s and `max_wait = 15`:
10 polls are made, `elapsed` (sleep time only) reaches `257/16 = 16.0625`,
and the total wall time is `1057/16 = 66.0625` seconds. -/
lemma c6_eval : poll_for_result_timed c6resp c6rt 15 =
    some (1057 / 16, none) := by
  unfold poll_for_result_timed
  rw [pollFuel_fifteen]
  rw [pollGoTimed_next c6resp c6rt 15 31 30 0 (1 / 2) 0 0 rfl (by norm_num)
    rfl]
  norm_num [nextInterval, min_def, c6rt]
  exact c6_step1

end KeeperClient

/-- C4: an HTTP 400 poll response is terminal for EVERY body: the loop
body returns immediately with the body marked `http_status = 400` (the
body's own `status` field — even `"pending"` — is preserved but ignored);
every response code other than 200 and 400 is non-terminal (the loop
continues); and at the loop level, if poll `m` answers 400 (all earlier
polls non-terminal), `_poll_for_result` performs at most `m + 1` poll
requests, and if it reaches poll `m` its return value is the 400-marked
body. -/
theorem poll_400_terminal :
    (∀ b : Option ResultData,
      pollStep (HttpResponse.resp 400 b) =
        StepResult.ret (some (mark400 b))) ∧
    (∀ b : Option ResultData, (mark400 b).http_status = some 400) ∧
    (∀ b : ResultData, (mark400 (some b)).status = b.status) ∧
    (∀ (c : ℕ) (b : Option ResultData), c ≠ 200 → c ≠ 400 →
      pollStep (HttpResponse.resp c b) = StepResult.next) ∧
    (∀ (resp : ℕ → HttpResponse) (maxWait : ℚ) (m : ℕ)
      (b : Option ResultData) (n : ℕ) (r : Option ResultData),
      resp m = HttpResponse.resp 400 b →
      (∀ j, j < m → pollStep (resp j) = StepResult.next) →
      poll_for_result resp maxWait = some (n, r) →
      n ≤ m + 1 ∧ (n = m + 1 → r = some (mark400 b))) := by
  refine ⟨fun b => rfl, ?_, fun b => rfl, ?_, ?_⟩
  · intro b
    cases b <;> rfl
  · intro c b h1 h2
    simp [pollStep, h1, h2]
  · intro resp maxWait m b n r hm hpre heq
    exact pollGo_first400 resp maxWait m b hm hpre (pollFuel maxWait) 0
      (1 / 2) 0 n r (Nat.zero_le m) heq

/-- C4 (witness): poll 0 answers 202, poll 1 answers 400 with body status
`"pending"`: the loop makes exactly 2 poll requests and returns the body
with `http_status = 400` and `status` still `"pending"`; a 503 poll is
non-terminal. -/
theorem poll_400_terminal_w :
    pollStep (HttpResponse.resp 400 (some c4body)) =
      StepResult.ret (some (mark400 (some c4body))) ∧
    (mark400 (some c4body)).status = some "pending" ∧
    (mark400 (some c4body)).http_status = some 400 ∧
    pollStep (HttpResponse.resp 503 none) = StepResult.next ∧
    2 ≤ 1 + 1 ∧
    (2 = 1 + 1 →
      (some (mark400 (some c4body)) : Option ResultData) =
        some (mark400 (some c4body))) := by
  have h5 := poll_400_terminal.2.2.2.2 c4resp 15 1 (some c4body) 2
    (some (mark400 (some c4body))) rfl
    (fun j hj => by
      have hj0 : j = 0 := Nat.lt_one_iff.mp hj
      subst hj0
      rfl)
    c4_eval
  exact ⟨poll_400_terminal.1 (some c4body),
    (poll_400_terminal.2.2.1 c4body).trans rfl,
    poll_400_terminal.2.1 (some c4body),
    poll_400_terminal.2.2.2.1 503 none (by decide) (by decide),
    h5.1, h5.2⟩

/-- C6 (counterexample): `pollResult` does NOT return within
`maxWait + one poll round-trip`: with `max_wait = 15` and a server that
answers 202 (non-terminal) to every poll with a 5-second round trip each
(the `session.get` timeout), the call returns after `1057/16 = 66.0625`
seconds of wall time — `elapsed` accrues only the sleeps, so ten polls of
5 s each are taken, far beyond `15 + 5 = 20` seconds. -/
theorem poll_wall_time_exceeds_single_roundtrip_bound :
    poll_for_result_timed c6resp c6rt 15 = some (1057 / 16, none) ∧
    (∀ j, c6rt j = 5) ∧
    ¬ ((1057 : ℚ) / 16 ≤ 15 + 5) :=
  ⟨c6_eval, fun _ => rfl, by norm_num⟩

/-- C6 (amended): `_poll_for_result` always terminates (never blocks
indefinitely), for every `maxWait` and every response sequence; and its
wall-clock return time is bounded by
`maxWait + 2.0 + (⌈2·maxWait⌉ + 1) · B` where `B` bounds one poll round
trip and `⌈2·maxWait⌉ + 1` bounds the number of polls — not by
`maxWait + one round trip`, because the `elapsed` counter accrues only
sleep time, never round-trip time. -/
theorem poll_terminates_with_roundtrip_dependent_bound :
    (∀ (resp : ℕ → HttpResponse) (maxWait : ℚ),
      (poll_for_result resp maxWait).isSome) ∧
    (∀ (resp : ℕ → HttpResponse) (rt : ℕ → ℚ) (maxWait B T : ℚ)
      (r : Option ResultData),
      0 ≤ maxWait → (∀ j, rt j ≤ B) → 0 ≤ B →
      poll_for_result_timed resp rt maxWait = some (T, r) →
      T ≤ maxWait + 2 + (pollFuel maxWait : ℚ) * B) := by
  refine ⟨poll_for_result_isSome, ?_⟩
  intro resp rt maxWait B T r hmw hrt hB heq
  have h := pollGoTimed_time_le resp rt maxWait B hrt hB (pollFuel maxWait)
    0 (1 / 2) 0 0 T r (by norm_num) (by linarith) heq
  linarith

/-- C6 (witness): the bound at the counterexample's own input:
`66.0625 ≤ 15 + 2 + 31·5`, and termination of the untimed loop there. -/
theorem poll_terminates_with_roundtrip_dependent_bound_w :
    (poll_for_result c6resp 15).isSome ∧
    (1057 : ℚ) / 16 ≤ 15 + 2 + (pollFuel 15 : ℚ) * 5 :=
  ⟨poll_terminates_with_roundtrip_dependent_bound.1 c6resp 15,
    poll_terminates_with_roundtrip_dependent_bound.2 c6resp c6rt 15 5
      (1057 / 16) none (by norm_num) (fun j => by norm_num [c6rt])
      (by norm_num) c6_eval⟩
